import Mathlib

/-!
Shallow embedding of the poker-seating server core (`src/server.js`):
the seating store, the uniqueness-constrained seating allocator
(`POST /api/generate`), result recording (`POST /api/results`), the admin
edit/delete endpoints, the payout calculator (`describePayouts`), the
incremental statistics update (`updatePlayerStats` and the per-placement
UPDATE statements), and the full recomputation (`recalculateStats`).

JavaScript arrays become Lean lists, SQLite tables become Lean lists of
rows (in rowid order: updates in place, inserts appended), `NULL`able
columns become `Option`, and `Math.random()`-driven choices become an
explicit choice oracle passed as an argument.
-/

deriving instance DecidableEq for Except

namespace PokerSeating

/-- One row of the `player_stats` table
(`player` is the association-list key). -/
structure PlayerRow where
  gamesPlayed : Nat
  wins : Nat
  top3 : Nat
  totalBuyins : Int
  totalWinnings : Int
  netProfit : Int
deriving DecidableEq

/-- One row of the `games` table.  `players` is the ordered seating
(stored serialized in the DB, held as a list here); `winner`,
`secondPlace`, `thirdPlace` are the `NULL`able placement columns. -/
structure Game where
  id : Nat
  players : List String
  seatingHash : String
  winner : Option String
  secondPlace : Option String
  thirdPlace : Option String
  buyIn : Int
deriving DecidableEq

/-- Statistics table: association list from player name to row, kept in
insertion (rowid) order. -/
abbrev Stats := List (String × PlayerRow)

/-- The persistent state: the `games` table, the `player_stats` table and
the AUTOINCREMENT counter for the next game id. -/
structure DB where
  games : List Game
  stats : Stats
  nextId : Nat
deriving DecidableEq

/-- The error taxonomy of the spec (plus the missing-field 400 of
`POST /api/results`). -/
inductive ApiError where
  | invalidInput
  | conflictActiveGame
  | exhaustedAttempts
  | notFound
  | invalidPlacement
  | missingFields
deriving DecidableEq

/-! ## Fingerprint function

`hashSeating` is `sha256(JSON.stringify(seating))`.  We model the
serialization (`JSON.stringify` on an array of strings) exactly;
the SHA-256 digest is modeled as the identity on the serialized bytes,
since the spec brackets digest collisions ("within digest collision
negligibility") and every property in this development depends only on
equality of digests, which under that assumption coincides with equality
of serializations. -/

/-- Lowercase hex digit, as emitted by `JSON.stringify` for control
characters (`\u00XX`). -/
def hexDigit (n : Nat) : Char :=
  if n < 10 then Char.ofNat (48 + n) else Char.ofNat (87 + n)

/-- `JSON.stringify` escaping of one character inside a string literal. -/
def escapeChar (c : Char) : List Char :=
  if c = '"' then ['\\', '"']
  else if c = '\\' then ['\\', '\\']
  else if c = '\x08' then ['\\', 'b']
  else if c = '\x09' then ['\\', 't']
  else if c = '\x0a' then ['\\', 'n']
  else if c = '\x0c' then ['\\', 'f']
  else if c = '\x0d' then ['\\', 'r']
  else if c.toNat < 32 then
    ['\\', 'u', '0', '0', hexDigit (c.toNat / 16), hexDigit (c.toNat % 16)]
  else [c]

def escapeString (s : List Char) : List Char :=
  (s.map escapeChar).flatten

/-- A JSON string literal: `"` + escaped body + `"`. -/
def quoteString (s : List Char) : List Char :=
  '"' :: (escapeString s ++ ['"'])

/-- Comma-separated concatenation, as in a JSON array body. -/
def commaSep : List (List Char) → List Char
  | [] => []
  | [x] => x
  | x :: y :: xs => x ++ ',' :: commaSep (y :: xs)

/-- `JSON.stringify` of an array of strings, on character lists. -/
def stringifyData (l : List (List Char)) : List Char :=
  '[' :: (commaSep (l.map quoteString) ++ [']'])

/-- `JSON.stringify(seating)` for a seating (array of player names). -/
def jsonStringifySeating (seating : List String) : String :=
  String.mk (stringifyData (seating.map String.data))

/-- `hashSeating(seating)`: the seating fingerprint.  The SHA-256 step is
modeled as the identity on the serialized form (see above). -/
def hashSeating (seating : List String) : String :=
  jsonStringifySeating seating

/-! ## Permutation generator (`shuffle`)

`shuffle` swaps `arr[i]` and `arr[j]` for `i = n-1 .. 1` with
`j = Math.floor(Math.random() * (i + 1))`.  The random draws are an
explicit oracle `cs : Nat → Nat`; the value used at step `i` is
`cs i % (i + 1)`, which ranges over `[0, i]` exactly as
`Math.floor(Math.random() * (i + 1))` does. -/

/-- `[arr[i], arr[j]] = [arr[j], arr[i]]` (indices always in bounds at
the call sites; out-of-bounds is the identity). -/
def listSwap (l : List α) (i j : Nat) : List α :=
  match l.get? i, l.get? j with
  | some a, some b => (l.set i b).set j a
  | _, _ => l

/-- The loop of `shuffle`, running `i = k, k-1, .., 1`. -/
def shuffleGo (cs : Nat → Nat) : Nat → List α → List α
  | 0, l => l
  | i + 1, l => shuffleGo cs i (listSwap l (i + 1) (cs (i + 1) % (i + 2)))

/-- `shuffle(arr)` with explicit random choices `cs`. -/
def shuffle (l : List α) (cs : Nat → Nat) : List α :=
  shuffleGo cs (l.length - 1) l

/-! ## Payout calculator (`describePayouts`) -/

/-- The object returned by `describePayouts`.  `totalPot` is `Option`
because the zero-pot branch of the code returns an object without a
`totalPot` field. -/
structure Payouts where
  first : Int
  second : Int
  third : Int
  totalPot : Option Int
deriving DecidableEq

/-- `describePayouts(playerCount, buyIn)`. -/
def describePayouts (playerCount : Nat) (buyIn : Int) : Payouts :=
  let totalPot : Int := (playerCount : Int) * buyIn
  if totalPot = 0 then { first := 0, second := 0, third := 0, totalPot := none }
  else { first := totalPot, second := 0, third := 0, totalPot := some totalPot }

/-! ## Statistics table primitives

`getRow` models `SELECT .. WHERE player = ?`, `adjustRow` models
`UPDATE player_stats SET .. WHERE player = ?` (a no-op when the row does
not exist), and `upsertWith` models
`INSERT .. ON CONFLICT(player) DO UPDATE ..` (new rows are appended, as
by rowid). -/

def getRow : Stats → String → Option PlayerRow
  | [], _ => none
  | (q, r) :: rest, p => if q = p then some r else getRow rest p

def adjustRow : Stats → String → (PlayerRow → PlayerRow) → Stats
  | [], _, _ => []
  | (q, r) :: rest, p, f =>
      if q = p then (q, f r) :: adjustRow rest p f
      else (q, r) :: adjustRow rest p f

def upsertWith (st : Stats) (p : String) (u : Option PlayerRow → PlayerRow) : Stats :=
  match getRow st p with
  | some _ => adjustRow st p (fun r => u (some r))
  | none => st ++ [(p, u none)]

/-! ## Incremental statistics updates -/

/-- The per-player upsert of `updatePlayerStats(players, buyIn)`:
`INSERT INTO player_stats (player, games_played, wins, total_buyins,
net_profit) VALUES (?, 1, 0, buyIn, -buyIn) ON CONFLICT(player) DO UPDATE
SET games_played = games_played + 1, total_buyins = total_buyins + buyIn,
net_profit = net_profit - buyIn` (`top3` and `total_winnings` default
to 0 on insert). -/
def gameCreatedUpsert (buyIn : Int) : Option PlayerRow → PlayerRow
  | some r =>
      { r with gamesPlayed := r.gamesPlayed + 1,
               totalBuyins := r.totalBuyins + buyIn,
               netProfit := r.netProfit - buyIn }
  | none =>
      { gamesPlayed := 1, wins := 0, top3 := 0,
        totalBuyins := buyIn, totalWinnings := 0, netProfit := -buyIn }

/-- `updatePlayerStats(players, buyIn)`: one upsert per seated player. -/
def updatePlayerStats (st : Stats) (players : List String) (buyIn : Int) : Stats :=
  players.foldl (fun st p => upsertWith st p (gameCreatedUpsert buyIn)) st

/-- JavaScript truthiness of an optional string (`null`/`undefined` and
`""` are falsy). -/
def optTruthy : Option String → Bool
  | some s => s ≠ ""
  | none => false

/-- `second || null`: a falsy placement value is stored as `NULL`. -/
def normOpt : Option String → Option String
  | some s => if s = "" then none else some s
  | none => none

/-- The three placement UPDATEs of `POST /api/results`: `wins + 1` and
`top3 + 1` for `first`; `top3 + 1` for `second` and `third` when truthy. -/
def applyResultsRecorded (st : Stats) (first : String)
    (second third : Option String) : Stats :=
  let st1 := adjustRow st first
    (fun r => { r with wins := r.wins + 1, top3 := r.top3 + 1 })
  let st2 := match normOpt second with
    | some s => adjustRow st1 s (fun r => { r with top3 := r.top3 + 1 })
    | none => st1
  match normOpt third with
  | some t => adjustRow st2 t (fun r => { r with top3 := r.top3 + 1 })
  | none => st2

/-! ## Full recomputation (`recalculateStats`) -/

/-- A zero-initialized stats accumulator entry
(`{ games: 0, wins: 0, top3: 0, buyins: 0, winnings: 0 }`). -/
def zeroRow : PlayerRow :=
  { gamesPlayed := 0, wins := 0, top3 := 0,
    totalBuyins := 0, totalWinnings := 0, netProfit := 0 }

/-- The body of `players.forEach(player => ..)` inside
`recalculateStats`: bump `games` and `buyins`, then `wins`/`top3` from
the placements. -/
def recalcBump (g : Game) (p : String) (r : PlayerRow) : PlayerRow :=
  let r1 := { r with gamesPlayed := r.gamesPlayed + 1,
                     totalBuyins := r.totalBuyins + g.buyIn }
  if g.winner = some p then
    { r1 with wins := r1.wins + 1, top3 := r1.top3 + 1 }
  else if g.secondPlace = some p ∨ g.thirdPlace = some p then
    { r1 with top3 := r1.top3 + 1 }
  else r1

/-- The winnings block of `recalculateStats` (run when `buyIn > 0` and a
winner exists): adds payout shares to placement players that already
have an accumulator entry. -/
def addWinnings (st : Stats) (g : Game) : Stats :=
  let payouts := describePayouts g.players.length g.buyIn
  let st1 := match g.winner with
    | some w =>
        if (getRow st w).isSome then
          adjustRow st w (fun r => { r with totalWinnings := r.totalWinnings + payouts.first })
        else st
    | none => st
  let st2 := match g.secondPlace with
    | some s =>
        if optTruthy (some s) ∧ (getRow st1 s).isSome then
          adjustRow st1 s (fun r => { r with totalWinnings := r.totalWinnings + payouts.second })
        else st1
    | none => st1
  match g.thirdPlace with
  | some t =>
      if optTruthy (some t) ∧ (getRow st2 t).isSome then
        adjustRow st2 t (fun r => { r with totalWinnings := r.totalWinnings + payouts.third })
      else st2
  | none => st2

/-- One iteration of `games.forEach(game => ..)` in `recalculateStats`. -/
def recalcGameStep (st : Stats) (g : Game) : Stats :=
  let st1 := g.players.foldl
    (fun st p => upsertWith st p (fun or => recalcBump g p (or.getD zeroRow))) st
  if 0 < g.buyIn ∧ optTruthy g.winner then addWinnings st1 g else st1

/-- `recalculateStats` over a games table: clear all rows, replay every
game, then insert rows with `net_profit = winnings - buyins`. -/
def recalculateStats (games : List Game) : Stats :=
  (games.foldl recalcGameStep []).map
    (fun e => (e.1, { e.2 with netProfit := e.2.totalWinnings - e.2.totalBuyins }))

/-- The database after `recalculateStats()` (the spec's `recomputeAll`):
the games table is the single source of truth for the stats table. -/
def recomputeAll (db : DB) : DB :=
  { db with stats := recalculateStats db.games }

/-- The chronological incremental replay of a history: for each game,
`updatePlayerStats` at creation and, when results were recorded (a
winner is set), the placement updates of `POST /api/results`. -/
def replayStep (st : Stats) (g : Game) : Stats :=
  let st1 := updatePlayerStats st g.players g.buyIn
  match g.winner with
  | some w => applyResultsRecorded st1 w g.secondPlace g.thirdPlace
  | none => st1

def replayIncremental (games : List Game) : Stats :=
  games.foldl replayStep []

/-! ## Endpoints -/

/-- `SELECT 1 FROM games WHERE winner IS NULL` (is some game active). -/
def hasActive (db : DB) : Bool :=
  db.games.any (fun g => g.winner.isNone)

/-- `SELECT 1 FROM games WHERE seating_hash = ?`. -/
def hashExists (db : DB) (h : String) : Bool :=
  db.games.any (fun g => g.seatingHash == h)

/-- `SELECT .. FROM games WHERE id = ?`. -/
def findGame (db : DB) (gameId : Nat) : Option Game :=
  db.games.find? (fun g => g.id == gameId)

/-- Number of active games (rows with `winner IS NULL`). -/
def activeCount (db : DB) : Nat :=
  db.games.countP (fun g => g.winner.isNone)

/-- The retry loop of `POST /api/generate`: up to `fuel` attempts, each
shuffling a copy of `players` with the draws `cs attempt`; on the first
fingerprint with no collision, insert the new game row and run the
incremental statistics update. -/
def generateGo (db : DB) (players : List String) (buyIn : Int)
    (cs : Nat → Nat → Nat) : Nat → Except ApiError (List String × Nat) × DB
  | 0 => (.error .exhaustedAttempts, db)
  | fuel + 1 =>
      let seating := shuffle players (cs (fuel + 1))
      let h := hashSeating seating
      if hashExists db h then generateGo db players buyIn cs fuel
      else
        let g : Game :=
          { id := db.nextId, players := seating, seatingHash := h,
            winner := none, secondPlace := none, thirdPlace := none,
            buyIn := buyIn }
        (.ok (seating, db.nextId),
          { games := db.games ++ [g],
            stats := updatePlayerStats db.stats seating buyIn,
            nextId := db.nextId + 1 })

/-- `POST /api/generate`: roster size check, active-game check, then the
50-attempt uniqueness loop. -/
def generateSeating (db : DB) (players : List String) (buyIn : Int)
    (cs : Nat → Nat → Nat) : Except ApiError (List String × Nat) × DB :=
  if players.length < 2 then (.error .invalidInput, db)
  else if hasActive db then (.error .conflictActiveGame, db)
  else generateGo db players buyIn cs 50

/-- A JSON number from the request body: a numeric value or `NaN`
(`Number()` of anything non-numeric). -/
inductive JsNum where
  | num (q : Int)
  | nan
deriving DecidableEq

/-- `Number(req.body.buyIn) || 0`: missing or non-numeric input becomes
`NaN` and is replaced by 0; any numeric value (0 included) is kept. -/
def coerceBuyIn : Option JsNum → Int
  | none => 0
  | some .nan => 0
  | some (.num q) => q

/-- `POST /api/generate` including the `buyIn` body coercion. -/
def generateEndpoint (db : DB) (players : List String)
    (buyInRaw : Option JsNum) (cs : Nat → Nat → Nat) :
    Except ApiError (List String × Nat) × DB :=
  generateSeating db players (coerceBuyIn buyInRaw) cs

/-- `if (second && !players.includes(second))`. -/
def placementBad (v : Option String) (players : List String) : Bool :=
  match normOpt v with
  | some s => decide (s ∉ players)
  | none => false

/-- `POST /api/results`: look up the game, validate the placements
against its seating, set the placement columns
(`winner = first, second_place = second || null, third_place = third ||
null`), then apply the incremental placement updates. -/
def recordResults (db : DB) (gameId : Nat) (first : String)
    (second third : Option String) : Except ApiError Unit × DB :=
  if gameId = 0 ∨ first = "" then (.error .missingFields, db)
  else
    match findGame db gameId with
    | none => (.error .notFound, db)
    | some game =>
      if first ∉ game.players then (.error .invalidPlacement, db)
      else if placementBad second game.players then (.error .invalidPlacement, db)
      else if placementBad third game.players then (.error .invalidPlacement, db)
      else
        (.ok (),
          { db with
            games := db.games.map (fun g =>
              if g.id = gameId then
                { g with winner := some first,
                         secondPlace := normOpt second,
                         thirdPlace := normOpt third }
              else g),
            stats := applyResultsRecorded db.stats first second third })

/-- `DELETE /api/admin/game/:id`: delete the row (no error when the id
is unknown), then `recalculateStats()`. -/
def adminDelete (db : DB) (gameId : Nat) : DB :=
  let games' := db.games.filter (fun g => g.id ≠ gameId)
  { db with games := games', stats := recalculateStats games' }

/-- A field of the PATCH body: `none` when absent (`undefined`),
`some none` for `null`, `some (some s)` for a string (possibly `""`). -/
abbrev PatchField := Option (Option String)

/-- The truthy value of a PATCH body field, if any. -/
def patchTruthy : PatchField → Option String
  | some (some s) => if s = "" then none else some s
  | _ => none

/-- `if (field && !players.includes(field))` for a PATCH body field. -/
def patchBad (v : PatchField) (players : List String) : Bool :=
  match patchTruthy v with
  | some x => decide (x ∉ players)
  | none => false

/-- `PATCH /api/admin/game/:id`: validate each truthy placement against
the seating, update exactly the supplied fields (`value || null`), then
`recalculateStats()` (skipped when no field was supplied). -/
def adminPatch (db : DB) (gameId : Nat)
    (winner secondPlace thirdPlace : PatchField) :
    Except ApiError Unit × DB :=
  match findGame db gameId with
  | none => (.error .notFound, db)
  | some game =>
    if patchBad winner game.players then
      (.error .invalidPlacement, db)
    else if patchBad secondPlace game.players then
      (.error .invalidPlacement, db)
    else if patchBad thirdPlace game.players then
      (.error .invalidPlacement, db)
    else if winner = none ∧ secondPlace = none ∧ thirdPlace = none then
      (.ok (), db)
    else
      let games' := db.games.map (fun g =>
        if g.id = gameId then
          { g with
            winner := if winner.isSome then patchTruthy winner else g.winner,
            secondPlace :=
              if secondPlace.isSome then patchTruthy secondPlace else g.secondPlace,
            thirdPlace :=
              if thirdPlace.isSome then patchTruthy thirdPlace else g.thirdPlace }
        else g)
      (.ok (), { db with games := games', stats := recalculateStats games' })

/-! ## A parser for the serialized form

Used only to prove that `jsonStringifySeating` is injective (the
serialization is canonical and unambiguous): parsing is a left inverse
of serialization.  The parsers are fueled; the fuel is always taken
large enough from the input length. -/

def hexVal (c : Char) : Option Nat :=
  if '0' ≤ c ∧ c ≤ '9' then some (c.toNat - 48)
  else if 'a' ≤ c ∧ c ≤ 'f' then some (c.toNat - 87)
  else none

def parseEscape (d : Char) (rest : List Char) : Option (Char × List Char) :=
  if d = '"' then some ('"', rest)
  else if d = '\\' then some ('\\', rest)
  else if d = 'b' then some ('\x08', rest)
  else if d = 't' then some ('\x09', rest)
  else if d = 'n' then some ('\x0a', rest)
  else if d = 'f' then some ('\x0c', rest)
  else if d = 'r' then some ('\x0d', rest)
  else if d = 'u' then
    match rest with
    | h1 :: h2 :: h3 :: h4 :: rest' =>
      match hexVal h1, hexVal h2, hexVal h3, hexVal h4 with
      | some v1, some v2, some v3, some v4 =>
          some (Char.ofNat (((v1 * 16 + v2) * 16 + v3) * 16 + v4), rest')
      | _, _, _, _ => none
    | _ => none
  else none

def parseStringBodyF : Nat → List Char → Option (List Char × List Char)
  | 0, _ => none
  | _ + 1, [] => none
  | fuel + 1, c :: rest =>
    if c = '"' then some ([], rest)
    else if c = '\\' then
      match rest with
      | [] => none
      | d :: rest' =>
        match parseEscape d rest' with
        | none => none
        | some (ch, rest'') =>
          match parseStringBodyF fuel rest'' with
          | some (s, rem) => some (ch :: s, rem)
          | none => none
    else
      match parseStringBodyF fuel rest with
      | some (s, rem) => some (c :: s, rem)
      | none => none

/-- Parse a string body up to its closing quote. -/
def parseQuoted (l : List Char) : Option (List Char × List Char) :=
  parseStringBodyF (l.length + 1) l

def parseItemsF : Nat → List Char → Option (List (List Char) × List Char)
  | 0, _ => none
  | fuel + 1, input =>
    match input with
    | '"' :: rest =>
      match parseQuoted rest with
      | none => none
      | some (s, rem) =>
        match rem with
        | ',' :: rem' =>
          match parseItemsF fuel rem' with
          | some (ss, rem'') => some (s :: ss, rem'')
          | none => none
        | ']' :: rem' => some ([s], rem')
        | _ => none
    | _ => none

/-- Parse a full serialized seating (must consume the whole input). -/
def parseSeatingData (l : List Char) : Option (List (List Char)) :=
  match l with
  | '[' :: rest =>
    match rest with
    | [']'] => some []
    | _ =>
      match parseItemsF (rest.length + 1) rest with
      | some (ss, []) => some ss
      | _ => none
  | _ => none

/-! ## Views and invariants used by the claims -/

/-- The `gamesPlayed`, `wins`, `top3` counters of a stats row. -/
def proj3 (r : PlayerRow) : Nat × Nat × Nat :=
  (r.gamesPlayed, r.wins, r.top3)

/-- The three counters of a player's row, if the player has one. -/
def proj3At (st : Stats) (p : String) : Option (Nat × Nat × Nat) :=
  (getRow st p).map proj3

/-- A game as produced by `POST /api/generate` followed by (at most one)
`POST /api/results`: duplicate-free seating; placements, when set, are
nonempty members of the seating, pairwise distinct, and only present
when a winner is present. -/
def validGame (g : Game) : Bool :=
  decide g.players.Nodup &&
  (match g.winner with
   | some w => decide (w ≠ "") && decide (w ∈ g.players)
   | none => decide (g.secondPlace = none) && decide (g.thirdPlace = none)) &&
  (match g.secondPlace with
   | some s => decide (s ≠ "") && decide (s ∈ g.players) && decide (g.winner ≠ some s)
   | none => true) &&
  (match g.thirdPlace with
   | some t => decide (t ≠ "") && decide (t ∈ g.players) && decide (g.winner ≠ some t)
               && decide (g.secondPlace ≠ some t)
   | none => true)

/-- The single-active-game invariant: at most one game row with
`winner IS NULL`. -/
abbrev invariantDB (db : DB) : Prop :=
  activeCount db ≤ 1

/-- Whether the game with the given id exists and is active. -/
def targetActive (db : DB) (gameId : Nat) : Bool :=
  match findGame db gameId with
  | some g => g.winner.isNone
  | none => false

/-! ## Lemmas: stats table primitives -/

theorem getRow_adjustRow_self (st : Stats) (p : String) (f : PlayerRow → PlayerRow) :
    getRow (adjustRow st p f) p = (getRow st p).map f := by
  induction st with
  | nil => simp [adjustRow, getRow]
  | cons e rest ih =>
      obtain ⟨k, r⟩ := e
      by_cases hk : k = p
      · subst hk; simp [adjustRow, getRow]
      · simp [adjustRow, getRow, hk, ih]

theorem getRow_adjustRow_ne (st : Stats) (p : String) (f : PlayerRow → PlayerRow)
    (q : String) (h : q ≠ p) :
    getRow (adjustRow st p f) q = getRow st q := by
  induction st with
  | nil => simp [adjustRow]
  | cons e rest ih =>
      obtain ⟨k, r⟩ := e
      by_cases hk : k = p
      · subst hk
        have : ¬ k = q := fun hh => h hh.symm
        simp [adjustRow, getRow, this, ih]
      · by_cases hkq : k = q <;> simp [adjustRow, getRow, hk, hkq, h, ih]

theorem getRow_adjustRow (st : Stats) (p : String) (f : PlayerRow → PlayerRow)
    (q : String) :
    getRow (adjustRow st p f) q = if q = p then (getRow st q).map f else getRow st q := by
  by_cases hq : q = p
  · subst hq; simp [getRow_adjustRow_self]
  · simp [hq, getRow_adjustRow_ne st p f q hq]

theorem getRow_append (st1 st2 : Stats) (q : String) :
    getRow (st1 ++ st2) q =
      match getRow st1 q with
      | some r => some r
      | none => getRow st2 q := by
  induction st1 with
  | nil => simp [getRow]
  | cons e rest ih =>
      obtain ⟨k, r⟩ := e
      by_cases hq : k = q <;> simp [getRow, hq, ih]

theorem getRow_upsertWith (st : Stats) (p : String)
    (u : Option PlayerRow → PlayerRow) (q : String) :
    getRow (upsertWith st p u) q =
      if q = p then some (u (getRow st p)) else getRow st q := by
  unfold upsertWith
  cases h : getRow st p with
  | some r0 =>
      rw [getRow_adjustRow]
      by_cases hq : q = p
      · subst hq; simp [h]
      · simp [hq]
  | none =>
      rw [getRow_append]
      by_cases hq : q = p
      · subst hq; simp [h, getRow]
      · cases hg : getRow st q <;> simp [getRow, hq, Ne.symm hq]

theorem getRow_foldl_upsert_notMem (players : List String)
    (u : String → Option PlayerRow → PlayerRow) (st : Stats) (q : String)
    (hq : q ∉ players) :
    getRow (players.foldl (fun st p => upsertWith st p (u p)) st) q = getRow st q := by
  induction players generalizing st with
  | nil => rfl
  | cons p rest ih =>
      simp only [List.mem_cons, not_or] at hq
      simp only [List.foldl_cons]
      rw [ih _ hq.2, getRow_upsertWith, if_neg hq.1]

theorem getRow_foldl_upsert_mem (players : List String)
    (u : String → Option PlayerRow → PlayerRow) (st : Stats) (q : String)
    (hnd : players.Nodup) (hq : q ∈ players) :
    getRow (players.foldl (fun st p => upsertWith st p (u p)) st) q =
      some (u q (getRow st q)) := by
  induction players generalizing st with
  | nil => cases hq
  | cons p rest ih =>
      simp only [List.foldl_cons]
      rcases List.mem_cons.mp hq with h | h
      · subst h
        rw [getRow_foldl_upsert_notMem _ _ _ _ (List.nodup_cons.mp hnd).1,
          getRow_upsertWith, if_pos rfl]
      · rw [ih _ (List.nodup_cons.mp hnd).2 h, getRow_upsertWith,
          if_neg (fun hqp : q = p => (List.nodup_cons.mp hnd).1 (hqp ▸ h))]

theorem getRow_map_netFix (st : Stats) (q : String)
    (f : PlayerRow → PlayerRow) :
    getRow (st.map (fun e => (e.1, f e.2))) q = (getRow st q).map f := by
  induction st with
  | nil => rfl
  | cons e rest ih =>
      obtain ⟨k, r⟩ := e
      by_cases hq : k = q <;> simp [getRow, hq, ih]

/-! ## Lemmas: `proj3` is unaffected by winnings-only updates -/

theorem proj3At_adjustRow_of (st : Stats) (p : String) (f : PlayerRow → PlayerRow)
    (hf : ∀ r, proj3 (f r) = proj3 r) (q : String) :
    proj3At (adjustRow st p f) q = proj3At st q := by
  unfold proj3At
  rw [getRow_adjustRow]
  by_cases hq : q = p
  · subst hq
    cases getRow st q <;> simp [hf]
  · simp [hq]

theorem proj3At_addWinnings (st : Stats) (g : Game) (q : String) :
    proj3At (addWinnings st g) q = proj3At st q := by
  unfold addWinnings
  cases g.winner <;> cases g.secondPlace <;> cases g.thirdPlace <;>
    simp only [] <;>
    repeat'
      first
      | rw [proj3At_adjustRow_of]
      | split
      | rfl
      | (intro r; rfl)

/-! ## Lemmas: `shuffle` is a permutation -/

theorem count_set_balance [DecidableEq α] (b x : α) (l : List α) :
    ∀ (i : Nat) (h : i < l.length),
      (l.set i b).count x + (if l[i] = x then 1 else 0) =
        l.count x + (if b = x then 1 else 0) := by
  induction l with
  | nil => intro i h; simp at h
  | cons a t ih =>
      intro i h
      cases i with
      | zero =>
          simp only [List.set_cons_zero, List.count_cons, beq_iff_eq,
            List.getElem_cons_zero]
          split_ifs <;> omega
      | succ n =>
          have hn : n < t.length := by simpa using h
          have := ih n hn
          simp only [List.set_cons_succ, List.count_cons, beq_iff_eq,
            List.getElem_cons_succ]
          split_ifs at this ⊢ <;> omega

theorem listSwap_count [DecidableEq α] (l : List α) (i j : Nat) (x : α) :
    (listSwap l i j).count x = l.count x := by
  unfold listSwap
  cases hi : l.get? i with
  | none => rfl
  | some a =>
      cases hj : l.get? j with
      | none => rfl
      | some b =>
          show List.count x ((l.set i b).set j a) = List.count x l
          have hi1 : i < l.length := (List.get?_eq_some.mp hi).1
          have hj1 : j < l.length := (List.get?_eq_some.mp hj).1
          have hia : l[i] = a := by
            obtain ⟨h1, h2⟩ := List.get?_eq_some.mp hi; simpa using h2
          have hjb : l[j] = b := by
            obtain ⟨h1, h2⟩ := List.get?_eq_some.mp hj; simpa using h2
          have hj2 : j < (l.set i b).length := by simpa using hj1
          have hsetb : (l.set i b)[j] = b := by
            by_cases hij : i = j
            · subst hij; simp
            · rw [List.getElem_set_ne hij, hjb]
          have h1 := count_set_balance b x l i hi1
          have h2 := count_set_balance a x (l.set i b) j hj2
          rw [hsetb] at h2
          rw [hia] at h1
          split_ifs at h1 h2 <;> omega

theorem listSwap_perm [DecidableEq α] (l : List α) (i j : Nat) :
    (listSwap l i j).Perm l :=
  List.perm_iff_count.mpr (fun x => listSwap_count l i j x)

theorem shuffleGo_perm [DecidableEq α] (cs : Nat → Nat) :
    ∀ (n : Nat) (l : List α), (shuffleGo cs n l).Perm l := by
  intro n
  induction n with
  | zero => intro l; exact List.Perm.refl l
  | succ m ih =>
      intro l
      exact (ih _).trans (listSwap_perm l (m + 1) (cs (m + 1) % (m + 2)))

theorem shuffle_perm [DecidableEq α] (l : List α) (cs : Nat → Nat) :
    (shuffle l cs).Perm l :=
  shuffleGo_perm cs (l.length - 1) l

theorem shuffle_small (l : List α) (cs : Nat → Nat) (h : l.length ≤ 1) :
    shuffle l cs = l := by
  unfold shuffle
  have : l.length - 1 = 0 := by omega
  rw [this]
  rfl

/-! ## Lemmas: counting active games -/

theorem countP_split (l : List α) (p q : α → Bool) :
    l.countP p =
      l.countP (fun a => p a && q a) + l.countP (fun a => p a && !q a) := by
  induction l with
  | nil => simp
  | cons a t ih =>
      simp only [List.countP_cons]
      by_cases hp : p a <;> by_cases hq : q a <;> simp [hp, hq] <;> omega

/-! ## Lemmas: the generate loop -/

theorem generateGo_ok_spec (db : DB) (players : List String) (b : Int)
    (cs : Nat → Nat → Nat) :
    ∀ (fuel : Nat) (seating : List String) (gid : Nat) (db' : DB),
      generateGo db players b cs fuel = (.ok (seating, gid), db') →
      (∃ r, seating = shuffle players (cs r)) ∧
      hashExists db (hashSeating seating) = false ∧
      gid = db.nextId ∧
      db' = { games := db.games ++
                [{ id := db.nextId, players := seating,
                   seatingHash := hashSeating seating, winner := none,
                   secondPlace := none, thirdPlace := none, buyIn := b }],
              stats := updatePlayerStats db.stats seating b,
              nextId := db.nextId + 1 } := by
  intro fuel
  induction fuel with
  | zero => intro seating gid db' h; simp [generateGo] at h
  | succ n ih =>
      intro seating gid db' h
      rw [generateGo] at h
      by_cases hex :
          hashExists db (hashSeating (shuffle players (cs (n + 1)))) = true
      · rw [if_pos hex] at h
        exact ih seating gid db' h
      · rw [if_neg hex] at h
        simp only [Prod.mk.injEq, Except.ok.injEq] at h
        obtain ⟨⟨hseat, hgid⟩, hdb⟩ := h
        subst hseat
        refine ⟨⟨n + 1, rfl⟩, by simpa using hex, hgid.symm, hdb.symm⟩

theorem generateGo_err_spec (db : DB) (players : List String) (b : Int)
    (cs : Nat → Nat → Nat) :
    ∀ (fuel : Nat) (e : ApiError) (db' : DB),
      generateGo db players b cs fuel = (.error e, db') →
      db' = db ∧ e = .exhaustedAttempts := by
  intro fuel
  induction fuel with
  | zero =>
      intro e db' h
      simp only [generateGo, Prod.mk.injEq, Except.error.injEq] at h
      exact ⟨h.2.symm, h.1.symm⟩
  | succ n ih =>
      intro e db' h
      rw [generateGo] at h
      by_cases hex :
          hashExists db (hashSeating (shuffle players (cs (n + 1)))) = true
      · rw [if_pos hex] at h
        exact ih e db' h
      · rw [if_neg hex] at h
        simp at h

theorem generateGo_all_collide (db : DB) (players : List String) (b : Int)
    (cs : Nat → Nat → Nat) :
    ∀ (fuel : Nat),
      (∀ r ∈ List.range' 1 fuel,
        hashExists db (hashSeating (shuffle players (cs r))) = true) →
      generateGo db players b cs fuel = (.error .exhaustedAttempts, db) := by
  intro fuel
  induction fuel with
  | zero => intro _; rfl
  | succ n ih =>
      intro hall
      rw [generateGo]
      have hmem : (n + 1) ∈ List.range' 1 (n + 1) :=
        List.mem_range'_1.mpr ⟨by omega, by omega⟩
      rw [if_pos (hall (n + 1) hmem)]
      exact ih (fun r hr => hall r
        (List.mem_range'_1.mpr
          ⟨(List.mem_range'_1.mp hr).1, by
            have := (List.mem_range'_1.mp hr).2; omega⟩))

/-! ## Lemmas: `POST /api/results` characterization -/

theorem recordResults_ok_spec (db : DB) (gid : Nat) (first : String)
    (s t : Option String) (db' : DB)
    (h : recordResults db gid first s t = (.ok (), db')) :
    ∃ g, findGame db gid = some g ∧ first ∈ g.players ∧
      db' = { db with
              games := db.games.map (fun gg =>
                if gg.id = gid then
                  { gg with winner := some first, secondPlace := normOpt s,
                            thirdPlace := normOpt t }
                else gg),
              stats := applyResultsRecorded db.stats first s t } := by
  unfold recordResults at h
  split at h
  · simp at h
  · split at h
    · simp at h
    · rename_i game hfind
      split at h
      · simp at h
      · split at h
        · simp at h
        · split at h
          · simp at h
          · rename_i hmem _ _
            simp only [Prod.mk.injEq] at h
            exact ⟨game, hfind, by simpa using hmem, h.2.symm⟩

theorem recordResults_err_spec (db : DB) (gid : Nat) (first : String)
    (s t : Option String) (e : ApiError) (db' : DB)
    (h : recordResults db gid first s t = (.error e, db')) :
    db' = db := by
  unfold recordResults at h
  split at h
  · simp only [Prod.mk.injEq] at h; exact h.2.symm
  · split at h
    · simp only [Prod.mk.injEq] at h; exact h.2.symm
    · split at h
      · simp only [Prod.mk.injEq] at h; exact h.2.symm
      · split at h
        · simp only [Prod.mk.injEq] at h; exact h.2.symm
        · split at h
          · simp only [Prod.mk.injEq] at h; exact h.2.symm
          · simp at h

/-! ## Lemmas: full recomputation agrees with incremental replay -/

theorem validGame_props (g : Game) (hg : validGame g = true) :
    g.players.Nodup ∧
    (∀ w, g.winner = some w → w ≠ "" ∧ w ∈ g.players) ∧
    (g.winner = none → g.secondPlace = none ∧ g.thirdPlace = none) ∧
    (∀ s, g.secondPlace = some s → s ≠ "" ∧ s ∈ g.players ∧ g.winner ≠ some s) ∧
    (∀ t, g.thirdPlace = some t →
      t ≠ "" ∧ t ∈ g.players ∧ g.winner ≠ some t ∧ g.secondPlace ≠ some t) := by
  unfold validGame at hg
  rcases hw : g.winner with _ | w <;> rcases hs : g.secondPlace with _ | s <;>
    rcases ht : g.thirdPlace with _ | t <;>
    rw [hw, hs, ht] at hg <;>
    simp_all

theorem proj3_recalcBump (g : Game) (q : String) (r : PlayerRow) :
    proj3 (recalcBump g q r) =
      (r.gamesPlayed + 1,
       r.wins + (if g.winner = some q then 1 else 0),
       r.top3 + (if g.winner = some q then 1 else 0)
              + (if g.winner ≠ some q ∧
                    (g.secondPlace = some q ∨ g.thirdPlace = some q)
                 then 1 else 0)) := by
  unfold recalcBump proj3
  by_cases h1 : g.winner = some q
  · simp [h1]
  · by_cases h2 : g.secondPlace = some q ∨ g.thirdPlace = some q <;>
      simp [h1, h2]

theorem proj3_gameCreatedUpsert (b : Int) (or : Option PlayerRow) :
    proj3 (gameCreatedUpsert b or) =
      (((or.map proj3).getD (0, 0, 0)).1 + 1,
       ((or.map proj3).getD (0, 0, 0)).2.1,
       ((or.map proj3).getD (0, 0, 0)).2.2) := by
  cases or <;> simp [gameCreatedUpsert, proj3]

theorem proj3_getD_zeroRow (or : Option PlayerRow) :
    proj3 (or.getD zeroRow) =
      ((or.map proj3).getD (0, 0, 0)) := by
  cases or <;> simp [zeroRow, proj3]

theorem getD_zeroRow_games (or : Option PlayerRow) :
    (or.getD zeroRow).gamesPlayed = ((or.map proj3).getD (0, 0, 0)).1 := by
  cases or <;> rfl

theorem getD_zeroRow_wins (or : Option PlayerRow) :
    (or.getD zeroRow).wins = ((or.map proj3).getD (0, 0, 0)).2.1 := by
  cases or <;> rfl

theorem getD_zeroRow_top3 (or : Option PlayerRow) :
    (or.getD zeroRow).top3 = ((or.map proj3).getD (0, 0, 0)).2.2 := by
  cases or <;> rfl

theorem gcu_games (b : Int) (or : Option PlayerRow) :
    (gameCreatedUpsert b or).gamesPlayed = ((or.map proj3).getD (0, 0, 0)).1 + 1 := by
  cases or <;> rfl

theorem gcu_wins (b : Int) (or : Option PlayerRow) :
    (gameCreatedUpsert b or).wins = ((or.map proj3).getD (0, 0, 0)).2.1 := by
  cases or <;> rfl

theorem gcu_top3 (b : Int) (or : Option PlayerRow) :
    (gameCreatedUpsert b or).top3 = ((or.map proj3).getD (0, 0, 0)).2.2 := by
  cases or <;> rfl

theorem getRow_adjust_map (st : Stats) (p : String) (f : PlayerRow → PlayerRow)
    (q : String) :
    getRow (adjustRow st p f) q =
      (getRow st q).map (fun r => if q = p then f r else r) := by
  rw [getRow_adjustRow]
  by_cases hq : q = p
  · simp [hq]
  · cases getRow st q <;> simp [hq]

theorem getRow_applyResults (st : Stats) (first : String)
    (second third : Option String) (q : String) :
    getRow (applyResultsRecorded st first second third) q =
      (getRow st q).map (fun r =>
        { r with
          wins := r.wins + (if q = first then 1 else 0),
          top3 := r.top3 + (if q = first then 1 else 0)
                + (match normOpt second with
                   | some s2 => if q = s2 then 1 else 0
                   | none => 0)
                + (match normOpt third with
                   | some t2 => if q = t2 then 1 else 0
                   | none => 0) }) := by
  rcases h2 : normOpt second with _ | s2 <;> rcases h3 : normOpt third with _ | t2
  · unfold applyResultsRecorded
    rw [h2, h3, getRow_adjust_map]
    cases hq : getRow st q
    · rfl
    · simp only [Option.map_some]
      split_ifs <;> rfl
  · unfold applyResultsRecorded
    rw [h2, h3, getRow_adjust_map, getRow_adjust_map]
    cases hq : getRow st q
    · rfl
    · simp only [Option.map_some]
      split_ifs <;> rfl
  · unfold applyResultsRecorded
    rw [h2, h3, getRow_adjust_map, getRow_adjust_map]
    cases hq : getRow st q
    · rfl
    · simp only [Option.map_some]
      split_ifs <;> rfl
  · unfold applyResultsRecorded
    rw [h2, h3, getRow_adjust_map, getRow_adjust_map, getRow_adjust_map]
    cases hq : getRow st q
    · rfl
    · simp only [Option.map_some]
      split_ifs <;> rfl

theorem matchBump_eq (o : Option String) (q : String) :
    (match o with
     | some x => if q = x then 1 else 0
     | none => 0) = if o = some q then (1 : Nat) else 0 := by
  cases o with
  | none => simp
  | some x =>
      by_cases h : q = x
      · simp [h]
      · have h' : ¬ x = q := fun hh => h hh.symm
        simp [h, h']

theorem wins_delta (w q : String) :
    (if some w = some q then (1 : Nat) else 0) = if q = w then 1 else 0 := by
  by_cases h : q = w
  · simp [h]
  · have h' : ¬ w = q := fun hh => h hh.symm
    simp [h, h']

theorem top3_delta (g : Game) (w q : String) (hw : g.winner = some w)
    (hsec : ∀ s, g.secondPlace = some s → s ≠ "" ∧ s ∈ g.players ∧ g.winner ≠ some s)
    (hthd : ∀ t, g.thirdPlace = some t →
      t ≠ "" ∧ t ∈ g.players ∧ g.winner ≠ some t ∧ g.secondPlace ≠ some t) :
    (if g.winner = some q then (1 : Nat) else 0)
      + (if g.winner ≠ some q ∧ (g.secondPlace = some q ∨ g.thirdPlace = some q)
         then 1 else 0)
    = (if q = w then 1 else 0)
      + (if normOpt g.secondPlace = some q then 1 else 0)
      + (if normOpt g.thirdPlace = some q then 1 else 0) := by
  rw [hw]
  rcases hs2 : g.secondPlace with _ | s2 <;> rcases ht2 : g.thirdPlace with _ | t2
  · by_cases e1 : w = q
    · simp [normOpt, e1]
    · have e1' : ¬ q = w := fun h => e1 h.symm
      simp [normOpt, e1, e1']
  · obtain ⟨ht2ne, -, ht2w, -⟩ := hthd t2 ht2
    rw [hw] at ht2w
    have hwt2 : ¬ w = t2 := fun h => ht2w (by rw [h])
    simp only [normOpt, if_neg ht2ne]
    by_cases e1 : w = q
    · have e3 : ¬ t2 = q := fun h => hwt2 (e1.trans h.symm)
      simp [e1, e3]
    · have e1' : ¬ q = w := fun h => e1 h.symm
      by_cases e3 : t2 = q <;> simp [e1, e1', e3]
  · obtain ⟨hs2ne, -, hs2w⟩ := hsec s2 hs2
    rw [hw] at hs2w
    have hws2 : ¬ w = s2 := fun h => hs2w (by rw [h])
    simp only [normOpt, if_neg hs2ne]
    by_cases e1 : w = q
    · have e2 : ¬ s2 = q := fun h => hws2 (e1.trans h.symm)
      simp [e1, e2]
    · have e1' : ¬ q = w := fun h => e1 h.symm
      by_cases e2 : s2 = q <;> simp [e1, e1', e2]
  · obtain ⟨hs2ne, -, hs2w⟩ := hsec s2 hs2
    obtain ⟨ht2ne, -, ht2w, ht2s⟩ := hthd t2 ht2
    rw [hw] at hs2w ht2w
    rw [hs2] at ht2s
    have hws2 : ¬ w = s2 := fun h => hs2w (by rw [h])
    have hwt2 : ¬ w = t2 := fun h => ht2w (by rw [h])
    have hs2t2 : ¬ s2 = t2 := fun h => ht2s (by rw [h])
    simp only [normOpt, if_neg hs2ne, if_neg ht2ne]
    by_cases e1 : w = q
    · have e2 : ¬ s2 = q := fun h => hws2 (e1.trans h.symm)
      have e3 : ¬ t2 = q := fun h => hwt2 (e1.trans h.symm)
      simp [e1, e2, e3]
    · have e1' : ¬ q = w := fun h => e1 h.symm
      by_cases e2 : s2 = q
      · have e3 : ¬ t2 = q := fun h => hs2t2 (e2.trans h.symm)
        simp [e1, e1', e2, e3]
      · by_cases e3 : t2 = q <;> simp [e1, e1', e2, e3]

/-- One valid game preserves the pointwise agreement (on the
`gamesPlayed`/`wins`/`top3` view) between the recompute accumulator and
the incremental-replay state. -/
theorem step_rel (g : Game) (hg : validGame g = true) (m s : Stats)
    (hrel : ∀ q, proj3At m q = proj3At s q) (q : String) :
    proj3At (recalcGameStep m g) q = proj3At (replayStep s g) q := by
  obtain ⟨hnd, hwin, hnowin, hsec, hthd⟩ := validGame_props g hg
  have hrc : proj3At (recalcGameStep m g) q =
      proj3At (g.players.foldl
        (fun st p => upsertWith st p (fun or => recalcBump g p (or.getD zeroRow))) m) q := by
    unfold recalcGameStep
    by_cases hc : 0 < g.buyIn ∧ optTruthy g.winner = true
    · rw [if_pos hc, proj3At_addWinnings]
    · rw [if_neg hc]
  rw [hrc]
  by_cases hq : q ∈ g.players
  · -- q is seated in this game
    have h1 := getRow_foldl_upsert_mem g.players
      (fun p or => recalcBump g p (or.getD zeroRow)) m q hnd hq
    have h2 : getRow (updatePlayerStats s g.players g.buyIn) q =
        some (gameCreatedUpsert g.buyIn (getRow s q)) := by
      unfold updatePlayerStats
      exact getRow_foldl_upsert_mem _ _ _ _ hnd hq
    have hrq := hrel q
    unfold proj3At at hrq ⊢
    rw [h1]
    unfold replayStep
    rcases hw : g.winner with _ | w
    · obtain ⟨hs0, ht0⟩ := hnowin hw
      rw [h2, Option.map_some', Option.map_some', proj3_recalcBump,
        getD_zeroRow_games, getD_zeroRow_wins, getD_zeroRow_top3, hrq,
        proj3_gameCreatedUpsert, hw, hs0, ht0]
      simp
    · rw [getRow_applyResults, h2, Option.map_some', Option.map_some',
        Option.map_some', proj3_recalcBump, getD_zeroRow_games,
        getD_zeroRow_wins, getD_zeroRow_top3, hrq]
      have hdelta := top3_delta g w q hw hsec hthd
      simp only [proj3, Option.some.injEq, Prod.mk.injEq, gcu_games, gcu_wins,
        gcu_top3, matchBump_eq]
      refine ⟨trivial, ?_, ?_⟩
      · rw [hw, wins_delta]
      · rw [Nat.add_assoc, hdelta, ← Nat.add_assoc, ← Nat.add_assoc]
  · -- q is not seated in this game
    have h1 : getRow (g.players.foldl
        (fun st p => upsertWith st p (fun or => recalcBump g p (or.getD zeroRow))) m) q =
        getRow m q :=
      getRow_foldl_upsert_notMem _ _ _ _ hq
    have h2 : getRow (updatePlayerStats s g.players g.buyIn) q = getRow s q := by
      unfold updatePlayerStats
      exact getRow_foldl_upsert_notMem _ _ _ _ hq
    have hrq := hrel q
    unfold proj3At at hrq ⊢
    rw [h1]
    unfold replayStep
    rcases hw : g.winner with _ | w
    · rw [h2]; exact hrq
    · obtain ⟨hwne, hwmem⟩ := hwin w hw
      have hqw : ¬ q = w := fun h => hq (h ▸ hwmem)
      have hsq : ¬ normOpt g.secondPlace = some q := by
        rcases hs2 : g.secondPlace with _ | s2
        · simp [normOpt]
        · obtain ⟨hs2ne, hs2mem, _⟩ := hsec s2 hs2
          simp only [normOpt, if_neg hs2ne, Option.some.injEq]
          exact fun h => hq (h ▸ hs2mem)
      have htq : ¬ normOpt g.thirdPlace = some q := by
        rcases ht2 : g.thirdPlace with _ | t2
        · simp [normOpt]
        · obtain ⟨ht2ne, ht2mem, _, _⟩ := hthd t2 ht2
          simp only [normOpt, if_neg ht2ne, Option.some.injEq]
          exact fun h => hq (h ▸ ht2mem)
      rw [getRow_applyResults, h2]
      rw [hrq]
      cases hsrow : getRow s q
      · rfl
      · rename_i r
        simp only [Option.map_some', Option.some.injEq]
        rw [matchBump_eq, matchBump_eq]
        simp [proj3, hqw, hsq, htq]

/-- Pointwise agreement propagates through a whole valid history. -/
theorem rel_foldl (games : List Game)
    (hv : ∀ g ∈ games, validGame g = true) :
    ∀ (m s : Stats), (∀ q, proj3At m q = proj3At s q) →
      ∀ q, proj3At (games.foldl recalcGameStep m) q =
        proj3At (games.foldl replayStep s) q := by
  induction games with
  | nil => intro m s h q; simpa using h q
  | cons g gs ih =>
      intro m s h q
      simp only [List.foldl_cons]
      exact ih (fun g' hg' => hv g' (List.mem_cons_of_mem _ hg')) _ _
        (step_rel g (hv g (List.mem_cons_self _ _)) m s h) q

theorem proj3At_recalcFix (st : Stats) (q : String) :
    proj3At (st.map (fun e =>
      (e.1, { e.2 with netProfit := e.2.totalWinnings - e.2.totalBuyins }))) q =
    proj3At st q := by
  induction st with
  | nil => rfl
  | cons e rest ih =>
      obtain ⟨k, r⟩ := e
      unfold proj3At at ih ⊢
      by_cases hk : k = q
      · simp [getRow, hk, proj3]
      · simpa [getRow, hk] using ih

theorem recalc_eq_replay (games : List Game)
    (hv : ∀ g ∈ games, validGame g = true) (q : String) :
    proj3At (recalculateStats games) q = proj3At (replayIncremental games) q := by
  unfold recalculateStats replayIncremental
  rw [proj3At_recalcFix]
  exact rel_foldl games hv [] [] (fun _ => rfl) q

/-! ## Lemmas: the serialization is canonical (parsing inverts it) -/

theorem hexVal_hexDigit (n : Nat) (h : n < 16) : hexVal (hexDigit n) = some n := by
  interval_cases n <;> decide

theorem escapeChar_length_pos (c : Char) : 1 ≤ (escapeChar c).length := by
  unfold escapeChar
  split_ifs <;> simp

theorem parseStep (c : Char) (f : Nat) (tail rest' : List Char) (s : List Char)
    (h : parseStringBodyF f tail = some (s, rest')) :
    parseStringBodyF (f + 1) (escapeChar c ++ tail) = some (c :: s, rest') := by
  by_cases h1 : c = '"'
  · subst h1; simp [escapeChar, parseStringBodyF, parseEscape, h]
  · by_cases h2 : c = '\\'
    · subst h2; simp [escapeChar, parseStringBodyF, parseEscape, h]
    · by_cases h3 : c = '\x08'
      · subst h3; simp [escapeChar, parseStringBodyF, parseEscape, h]
      · by_cases h4 : c = '\x09'
        · subst h4; simp [escapeChar, parseStringBodyF, parseEscape, h]
        · by_cases h5 : c = '\x0a'
          · subst h5; simp [escapeChar, parseStringBodyF, parseEscape, h]
          · by_cases h6 : c = '\x0c'
            · subst h6; simp [escapeChar, parseStringBodyF, parseEscape, h]
            · by_cases h7 : c = '\x0d'
              · subst h7; simp [escapeChar, parseStringBodyF, parseEscape, h]
              · by_cases h8 : c.toNat < 32
                · have d1 : c.toNat / 16 < 16 := by omega
                  have d2 : c.toNat % 16 < 16 := by omega
                  have hval : ((0 * 16 + 0) * 16 + c.toNat / 16) * 16 + c.toNat % 16
                      = c.toNat := by omega
                  have hch : Char.ofNat (((0 * 16 + 0) * 16 + c.toNat / 16) * 16
                      + c.toNat % 16) = c := by
                    rw [hval]; exact Char.ofNat_toNat c
                  have h0 : hexVal '0' = some 0 := by decide
                  have hch2 : Char.ofNat (c.toNat / 16 * 16 + c.toNat % 16) = c := by
                    rw [show c.toNat / 16 * 16 + c.toNat % 16 = c.toNat from by omega]
                    exact Char.ofNat_toNat c
                  simp [escapeChar, h1, h2, h3, h4, h5, h6, h7, h8,
                    parseStringBodyF, parseEscape, h0, hexVal_hexDigit _ d1,
                    hexVal_hexDigit _ d2, hch2, h]
                · simp [escapeChar, h1, h2, h3, h4, h5, h6, h7, h8,
                    parseStringBodyF, h]

theorem parseBody_round (s : List Char) :
    ∀ (rest : List Char) (f : Nat), (escapeString s).length ≤ f →
      parseStringBodyF (f + 1) (escapeString s ++ '"' :: rest) = some (s, rest) := by
  induction s with
  | nil =>
      intro rest f _
      simp [escapeString, parseStringBodyF]
  | cons c cs ih =>
      intro rest f hf
      have hesc : escapeString (c :: cs) = escapeChar c ++ escapeString cs := by
        simp [escapeString]
      rw [hesc] at hf ⊢
      have hpos := escapeChar_length_pos c
      rw [List.length_append] at hf
      obtain ⟨f', rfl⟩ : ∃ f', f = f' + 1 := ⟨f - 1, by omega⟩
      rw [List.append_assoc]
      exact parseStep c (f' + 1) _ rest cs (ih rest f' (by omega))

theorem parseQuoted_round (s rest : List Char) :
    parseQuoted (escapeString s ++ '"' :: rest) = some (s, rest) := by
  unfold parseQuoted
  have hlen : (escapeString s ++ '"' :: rest).length =
      ((escapeString s).length + rest.length + 1) := by
    simp [List.length_append]
    omega
  rw [hlen]
  exact parseBody_round s rest ((escapeString s).length + rest.length + 1) (by omega)

theorem parseItems_round (ss : List (List Char)) (hne : ss ≠ []) :
    ∀ (rest : List Char) (fuel : Nat), ss.length ≤ fuel →
      parseItemsF fuel (commaSep (ss.map quoteString) ++ ']' :: rest) =
        some (ss, rest) := by
  induction ss with
  | nil => cases hne rfl
  | cons x xs ih =>
      intro rest fuel hfuel
      obtain ⟨f', rfl⟩ : ∃ f', fuel = f' + 1 := ⟨fuel - 1, by
        simp at hfuel; omega⟩
      cases xs with
      | nil =>
          have : commaSep ([x].map quoteString) ++ ']' :: rest =
              '"' :: (escapeString x ++ '"' :: (']' :: rest)) := by
            simp [commaSep, quoteString]
          rw [this]
          simp [parseItemsF, parseQuoted_round]
      | cons y ys =>
          have : commaSep ((x :: y :: ys).map quoteString) ++ ']' :: rest =
              '"' :: (escapeString x ++ '"' ::
                (',' :: (commaSep ((y :: ys).map quoteString) ++ ']' :: rest))) := by
            simp [commaSep, quoteString]
          rw [this]
          have hrec := ih (by simp) rest f' (by simp at hfuel ⊢; omega)
          simp only [List.map_cons] at hrec
          simp [parseItemsF, parseQuoted_round, hrec]

theorem commaSep_quote_length (l : List (List Char)) :
    l.length ≤ (commaSep (l.map quoteString)).length := by
  induction l with
  | nil => simp [commaSep]
  | cons x xs ih =>
      cases xs with
      | nil => simp [commaSep, quoteString]
      | cons y ys =>
          have hq : (quoteString x).length = (escapeString x).length + 2 := by
            simp [quoteString]
          simp only [List.map_cons, commaSep, List.length_append,
            List.length_cons] at ih ⊢
          omega

theorem parseSeatingData_round (l : List (List Char)) :
    parseSeatingData (stringifyData l) = some l := by
  cases l with
  | nil => rfl
  | cons x xs =>
      cases xs with
      | nil =>
          have hshape : stringifyData [x] =
              '[' :: ('"' :: (escapeString x ++ '"' :: (']' :: []))) := by
            simp [stringifyData, commaSep, quoteString]
          rw [hshape]
          have hit := parseItems_round [x] (by simp) []
            ((escapeString x).length + 2 + 1 + 1)
            (by simp only [List.length_cons, List.length_nil]; omega)
          have hin : commaSep ([x].map quoteString) ++ ']' :: [] =
              '"' :: (escapeString x ++ '"' :: (']' :: [])) := by
            simp [commaSep, quoteString]
          rw [hin] at hit
          simp [parseSeatingData, hit]
      | cons y ys =>
          have hshape : stringifyData (x :: y :: ys) =
              '[' :: ('"' :: (escapeString x ++ '"' ::
                (',' :: (commaSep ((y :: ys).map quoteString) ++ ']' :: [])))) := by
            simp [stringifyData, commaSep, quoteString]
          rw [hshape]
          have hit := parseItems_round (x :: y :: ys) (by simp) []
            ((escapeString x).length +
              ((commaSep (quoteString y :: List.map quoteString ys)).length
                + 1 + 1 + 1) + 1 + 1)
            (by
              have := commaSep_quote_length (y :: ys)
              simp only [List.map_cons, List.length_cons] at this ⊢
              omega)
          have hin : commaSep ((x :: y :: ys).map quoteString) ++ ']' :: [] =
              '"' :: (escapeString x ++ '"' ::
                (',' :: (commaSep ((y :: ys).map quoteString) ++ ']' :: []))) := by
            simp [commaSep, quoteString]
          rw [hin] at hit
          simp only [List.map_cons] at hit
          simp [parseSeatingData, hit]

theorem stringifyData_inj (a b : List (List Char))
    (h : stringifyData a = stringifyData b) : a = b := by
  have ha := parseSeatingData_round a
  rw [h, parseSeatingData_round b] at ha
  exact (Option.some.inj ha).symm

theorem string_data_inj (s t : String) (h : s.data = t.data) : s = t := by
  cases s; cases t; exact congrArg String.mk h

theorem jsonStringifySeating_inj (a b : List String)
    (h : jsonStringifySeating a = jsonStringifySeating b) : a = b := by
  unfold jsonStringifySeating at h
  have h2 : stringifyData (a.map String.data) = stringifyData (b.map String.data) :=
    congrArg String.data h
  have h3 := stringifyData_inj _ _ h2
  have hinj : Function.Injective String.data := fun s t hh => string_data_inj s t hh
  exact List.map_injective_iff.mpr hinj h3

/-! ## Lemmas: `POST /api/generate` characterization -/

theorem generateSeating_ok_spec (db : DB) (players : List String) (b : Int)
    (cs : Nat → Nat → Nat) (seating : List String) (gid : Nat) (db' : DB)
    (h : generateSeating db players b cs = (.ok (seating, gid), db')) :
    ¬ players.length < 2 ∧ hasActive db = false ∧
    (∃ r, seating = shuffle players (cs r)) ∧
    hashExists db (hashSeating seating) = false ∧
    gid = db.nextId ∧
    db' = { games := db.games ++
              [{ id := db.nextId, players := seating,
                 seatingHash := hashSeating seating, winner := none,
                 secondPlace := none, thirdPlace := none, buyIn := b }],
            stats := updatePlayerStats db.stats seating b,
            nextId := db.nextId + 1 } := by
  unfold generateSeating at h
  by_cases h1 : players.length < 2
  · rw [if_pos h1] at h; simp at h
  · rw [if_neg h1] at h
    by_cases h2 : hasActive db = true
    · rw [if_pos h2] at h; simp at h
    · rw [if_neg h2] at h
      obtain ⟨hr, hnex, hgid, hdb⟩ := generateGo_ok_spec db players b cs 50 seating gid db' h
      exact ⟨h1, by simpa using h2, hr, hnex, hgid, hdb⟩

theorem generateSeating_err_spec (db : DB) (players : List String) (b : Int)
    (cs : Nat → Nat → Nat) (e : ApiError) (db' : DB)
    (h : generateSeating db players b cs = (.error e, db')) : db' = db := by
  unfold generateSeating at h
  by_cases h1 : players.length < 2
  · rw [if_pos h1] at h
    simp only [Prod.mk.injEq] at h
    exact h.2.symm
  · rw [if_neg h1] at h
    by_cases h2 : hasActive db = true
    · rw [if_pos h2] at h
      simp only [Prod.mk.injEq] at h
      exact h.2.symm
    · rw [if_neg h2] at h
      exact (generateGo_err_spec db players b cs 50 e db' h).1

theorem hashExists_false_iff (db : DB) (h : String) :
    hashExists db h = false ↔ h ∉ db.games.map (fun g => g.seatingHash) := by
  unfold hashExists
  rw [List.any_eq_false]
  constructor
  · intro hf hmem
    obtain ⟨g, hg, hgh⟩ := List.mem_map.mp hmem
    exact hf g hg (by simp [hgh])
  · intro hnm g hg hbeq
    exact hnm (List.mem_map.mpr ⟨g, hg, by simpa using hbeq⟩)

/-! ## Lemmas: active-game counting -/

theorem activeCount_zero_of_not_hasActive (db : DB) (h : hasActive db = false) :
    activeCount db = 0 := by
  unfold activeCount
  rw [List.countP_eq_zero]
  unfold hasActive at h
  rw [List.any_eq_false] at h
  exact h

theorem activeCount_insert_active (db : DB) (g : Game) (hg : g.winner = none) :
    (db.games ++ [g]).countP (fun gg => gg.winner.isNone) = activeCount db + 1 := by
  unfold activeCount
  rw [List.countP_append]
  simp [hg]

theorem activeCount_record_le (db : DB) (gid : Nat) (first : String)
    (s t : Option String) :
    ((recordResults db gid first s t).2).games.countP (fun gg => gg.winner.isNone) ≤
      activeCount db := by
  rcases hr : recordResults db gid first s t with ⟨res, db'⟩
  cases res with
  | error e =>
      rw [recordResults_err_spec db gid first s t e db' hr]
      exact Nat.le.refl
  | ok u =>
      obtain ⟨g, hfind, hmem, hdb⟩ := recordResults_ok_spec db gid first s t db' hr
      rw [hdb]
      simp only []
      rw [List.countP_map]
      apply List.countP_mono_left
      intro gg hgg hp
      by_cases hid : gg.id = gid
      · simp [Function.comp, hid] at hp
      · simpa [Function.comp, hid] using hp

theorem activeCount_record_zero (db : DB) (gid : Nat) (first : String)
    (s t : Option String) (db' : DB)
    (hok : recordResults db gid first s t = (.ok (), db'))
    (hinv : invariantDB db) (htgt : targetActive db gid = true) :
    activeCount db' = 0 := by
  obtain ⟨g, hfind, hmem, hdb⟩ := recordResults_ok_spec db gid first s t db' hok
  have hg1 : g ∈ db.games := List.mem_of_find?_eq_some hfind
  have hgid : g.id = gid := by simpa using List.find?_some hfind
  have hwin : g.winner = none := by
    unfold targetActive at htgt
    rw [hfind] at htgt
    simpa using htgt
  subst hdb
  unfold activeCount
  simp only []
  rw [List.countP_map, List.countP_eq_zero]
  intro gg hgg hp
  have hggid : ¬ gg.id = gid := by
    by_contra hc
    simp [Function.comp, hc] at hp
  have hgact : gg.winner.isNone = true := by
    simpa [Function.comp, hggid] using hp
  have hsplit := countP_split db.games (fun x => x.winner.isNone)
    (fun x => decide (x.id = gid))
  have h1 : 0 < db.games.countP
      (fun x => x.winner.isNone && decide (x.id = gid)) :=
    List.countP_pos_iff.mpr ⟨g, hg1, by simp [hwin, hgid]⟩
  have h2 : 0 < db.games.countP
      (fun x => x.winner.isNone && !decide (x.id = gid)) :=
    List.countP_pos_iff.mpr ⟨gg, hgg, by simp [hgact, hggid]⟩
  unfold invariantDB activeCount at hinv
  omega

theorem activeCount_delete_le (db : DB) (did : Nat) :
    activeCount (adminDelete db did) ≤ activeCount db := by
  unfold adminDelete activeCount
  simp only []
  rw [List.countP_filter]
  apply List.countP_mono_left
  intro g _ hp
  exact (Bool.and_eq_true _ _ |>.mp hp).1

/-! ## Claim theorems -/

/-- C4: `recalculateStats` (the spec's `recomputeAll`) is idempotent:
for any fixed game history, running it twice in a row yields
PlayerStatistic rows identical to running it once, since it clears the
stats table and recomputes it purely from the games table, which it
never modifies. -/
theorem recomputeAll_idempotent (db : DB) :
    recomputeAll (recomputeAll db) = recomputeAll db := rfl

/-- C7 counterexample: the claim asserts the returned record always has
`totalPot = playerCount × buyIn`, but `computePayouts(3, 0)` (the
claim's own example input) returns a record with no `totalPot` field at
all (the zero-pot branch omits it). -/
theorem payouts_counterexample :
    (describePayouts 3 0).totalPot ≠ some ((3 : Int) * 0) := by decide

/-- C7 (amended): `computePayouts(playerCount, buyIn)` returns
`{first, second, third}` with all payouts 0 and no `totalPot` field when
`playerCount × buyIn = 0`; otherwise it returns winner-take-all:
`first = totalPot = playerCount × buyIn`, `second = third = 0`, with the
`totalPot` field present.  In particular `computePayouts(4, 100) =
{first: 400, second: 0, third: 0, totalPot: 400}` and
`computePayouts(3, 0)` has all payouts 0 (and omits `totalPot`). -/
theorem payouts_spec :
    (∀ (pc : Nat) (b : Int), 0 ≤ b →
      ((pc : Int) * b = 0 →
        describePayouts pc b =
          { first := 0, second := 0, third := 0, totalPot := none }) ∧
      ((pc : Int) * b ≠ 0 →
        describePayouts pc b =
          { first := (pc : Int) * b, second := 0, third := 0,
            totalPot := some ((pc : Int) * b) })) ∧
    describePayouts 4 100 =
      { first := 400, second := 0, third := 0, totalPot := some 400 } ∧
    describePayouts 3 0 =
      { first := 0, second := 0, third := 0, totalPot := none } := by
  refine ⟨?_, by decide, by decide⟩
  intro pc b _
  constructor
  · intro h; simp [describePayouts, h]
  · intro h; simp [describePayouts, h]

/-- C7 witness: the general clause of `payouts_spec` evaluated at
`(4, 100)`. -/
theorem payouts_spec_witness :
    describePayouts 4 100 =
      { first := (4 : Int) * 100, second := 0, third := 0,
        totalPot := some ((4 : Int) * 100) } :=
  (payouts_spec.1 4 100 (by decide)).2 (by decide)

/-- C8: the fingerprint is pure and deterministic, and two seatings have
the same fingerprint iff they are the same ordered sequence of player
names: the pre-digest serialization (`JSON.stringify` with its escaping
of quotes, backslashes and control characters) is canonical and
unambiguous, so no two distinct orderings or rosters — including names
containing separator-like characters — serialize to the same byte
string.  (The SHA-256 digest itself is modeled as injective, which is
the claim's "within digest collision negligibility" bracket.) -/
theorem fingerprint_injective :
    (∀ a b : List String, hashSeating a = hashSeating b ↔ a = b) ∧
    (∀ a b : List String,
      jsonStringifySeating a = jsonStringifySeating b ↔ a = b) := by
  have h : ∀ a b : List String,
      jsonStringifySeating a = jsonStringifySeating b ↔ a = b :=
    fun a b => ⟨jsonStringifySeating_inj a b, fun hh => by rw [hh]⟩
  exact ⟨h, h⟩

/-- C9: `shuffle(players)` returns an ordered sequence containing
exactly the same multiset of identifiers as its input (for every choice
of random draws), and for input of size 0 or 1 returns it unchanged.
The JavaScript `shuffle` permutes its argument array in place; the
embedding is pure, and the code's only call site passes a fresh copy
(`shuffle([...players])`), so the caller's roster is never mutated. -/
theorem shuffle_spec :
    (∀ (l : List String) (cs : Nat → Nat), (shuffle l cs).Perm l) ∧
    (∀ (l : List String) (cs : Nat → Nat), l.length ≤ 1 → shuffle l cs = l) :=
  ⟨fun l cs => shuffle_perm l cs, fun l cs h => shuffle_small l cs h⟩

/-- C9 witness: `shuffle_spec` at concrete inputs. -/
theorem shuffle_spec_witness :
    (shuffle ["A", "B", "C"] (fun _ => 1)).Perm ["A", "B", "C"] ∧
    shuffle ["A"] (fun _ => 0) = ["A"] :=
  ⟨shuffle_spec.1 ["A", "B", "C"] (fun _ => 1),
   shuffle_spec.2 ["A"] (fun _ => 0) (by decide)⟩

/-- C2: for every roster of at least 2 players, a successful
`generateSeating` returns a seating that is a permutation of the roster
whose fingerprint does not occur in the history, and persists exactly
one new Game row, carrying that seating, its fingerprint, the buy-in,
and empty placements. -/
theorem generate_success_spec (db : DB) (players : List String) (b : Int)
    (cs : Nat → Nat → Nat) (seating : List String) (gid : Nat) (db' : DB)
    (h : generateSeating db players b cs = (.ok (seating, gid), db')) :
    seating.Perm players ∧
    hashSeating seating ∉ db.games.map (fun g => g.seatingHash) ∧
    gid = db.nextId ∧
    db'.games = db.games ++
      [{ id := db.nextId, players := seating,
         seatingHash := hashSeating seating, winner := none,
         secondPlace := none, thirdPlace := none, buyIn := b }] := by
  obtain ⟨-, -, ⟨r, hseat⟩, hnex, hgid, hdb⟩ :=
    generateSeating_ok_spec db players b cs seating gid db' h
  refine ⟨?_, (hashExists_false_iff db _).mp hnex, hgid, by rw [hdb]⟩
  rw [hseat]
  exact shuffle_perm players (cs r)

/-- C2 witness: a successful generation on an empty store with roster
`["A","B"]` and the all-zero random oracle. -/
theorem generate_success_spec_witness :
    (["B", "A"] : List String).Perm ["A", "B"] :=
  (generate_success_spec ⟨[], [], 1⟩ ["A", "B"] 0 (fun _ _ => 0) ["B", "A"] 1
    ⟨[⟨1, ["B", "A"], hashSeating ["B", "A"], none, none, none, 0⟩],
     [("B", ⟨1, 0, 0, 0, 0, 0⟩), ("A", ⟨1, 0, 0, 0, 0, 0⟩)], 2⟩
    (by decide)).1

/-- C5 counterexample: the claim says `generateSeating` fails with
`InvalidInput` when the roster lacks 2 distinct entries, but the code
only checks the array length: the duplicate roster `["A","A"]` (one
distinct entry) is accepted and a game is created. -/
theorem generate_validation_counterexample :
    (generateSeating ⟨[], [], 1⟩ ["A", "A"] 0 (fun _ _ => 0)).1 =
      .ok (["A", "A"], 1) ∧
    (generateSeating ⟨[], [], 1⟩ ["A", "A"] 0 (fun _ _ => 0)).1 ≠
      .error .invalidInput := by decide

/-- C5 (amended): `generateSeating` fails with `InvalidInput` when
`players` has fewer than 2 entries (distinctness is not checked: a
roster of duplicated entries is accepted), with `ConflictActiveGame`
when an active Game exists at call time, and with `ExhaustedAttempts`
when all 50 candidate attempts collide; on every failure path it has
zero persisted side effects. -/
theorem generate_error_handling (db : DB) (players : List String) (b : Int)
    (cs : Nat → Nat → Nat) :
    (players.length < 2 →
      generateSeating db players b cs = (.error .invalidInput, db)) ∧
    (¬ players.length < 2 → hasActive db = true →
      generateSeating db players b cs = (.error .conflictActiveGame, db)) ∧
    (¬ players.length < 2 → hasActive db = false →
      (∀ r ∈ List.range' 1 50,
        hashExists db (hashSeating (shuffle players (cs r))) = true) →
      generateSeating db players b cs = (.error .exhaustedAttempts, db)) ∧
    (∀ e db', generateSeating db players b cs = (.error e, db') → db' = db) := by
  refine ⟨?_, ?_, ?_, ?_⟩
  · intro h1
    unfold generateSeating
    rw [if_pos h1]
  · intro h1 h2
    unfold generateSeating
    rw [if_neg h1, if_pos h2]
  · intro h1 h2 hall
    unfold generateSeating
    rw [if_neg h1, if_neg (by simp [h2])]
    exact generateGo_all_collide db players b cs 50 hall
  · intro e db' h
    exact generateSeating_err_spec db players b cs e db' h

/-- C5 witness: the three failure modes at concrete inputs — a roster of
size 1, a store with an active game, and a store already holding the
only seating the all-zero oracle can produce for `["A","B"]`. -/
theorem generate_error_handling_witness :
    generateSeating ⟨[], [], 1⟩ ["A"] 0 (fun _ _ => 0) =
      (.error .invalidInput, ⟨[], [], 1⟩) ∧
    generateSeating ⟨[⟨1, ["A", "B"], "h", none, none, none, 0⟩], [], 2⟩
        ["A", "B"] 0 (fun _ _ => 0) =
      (.error .conflictActiveGame,
        ⟨[⟨1, ["A", "B"], "h", none, none, none, 0⟩], [], 2⟩) ∧
    generateSeating
        ⟨[⟨1, ["B", "A"], hashSeating ["B", "A"], some "A", none, none, 0⟩], [], 2⟩
        ["A", "B"] 0 (fun _ _ => 0) =
      (.error .exhaustedAttempts,
        ⟨[⟨1, ["B", "A"], hashSeating ["B", "A"], some "A", none, none, 0⟩], [], 2⟩) :=
  ⟨(generate_error_handling ⟨[], [], 1⟩ ["A"] 0 (fun _ _ => 0)).1 (by decide),
   (generate_error_handling ⟨[⟨1, ["A", "B"], "h", none, none, none, 0⟩], [], 2⟩
      ["A", "B"] 0 (fun _ _ => 0)).2.1 (by decide) (by decide),
   (generate_error_handling
      ⟨[⟨1, ["B", "A"], hashSeating ["B", "A"], some "A", none, none, 0⟩], [], 2⟩
      ["A", "B"] 0 (fun _ _ => 0)).2.2.1 (by decide) (by decide) (by decide)⟩

/-- C6: `recordResults(gameId, first, second?, third?)` (with `gameId`
and `first` supplied) fails with `NotFound` when no Game with `gameId`
exists, and with `InvalidPlacement` when `first` — or a supplied
(truthy) `second`/`third` — is not a member of that Game's seating; on
any failure both the games table and the player statistics are
unchanged. -/
theorem results_error_handling (db : DB) (gid : Nat) (first : String)
    (s t : Option String) (hgid : gid ≠ 0) (hf : first ≠ "") :
    (findGame db gid = none →
      recordResults db gid first s t = (.error .notFound, db)) ∧
    (∀ g, findGame db gid = some g → first ∉ g.players →
      recordResults db gid first s t = (.error .invalidPlacement, db)) ∧
    (∀ g x, findGame db gid = some g → first ∈ g.players →
      normOpt s = some x → x ∉ g.players →
      recordResults db gid first s t = (.error .invalidPlacement, db)) ∧
    (∀ g x, findGame db gid = some g → first ∈ g.players →
      (∀ y, normOpt s = some y → y ∈ g.players) →
      normOpt t = some x → x ∉ g.players →
      recordResults db gid first s t = (.error .invalidPlacement, db)) ∧
    (∀ e db', recordResults db gid first s t = (.error e, db') → db' = db) := by
  have hguard : ¬ (gid = 0 ∨ first = "") := by
    rintro (h | h)
    · exact hgid h
    · exact hf h
  refine ⟨?_, ?_, ?_, ?_, ?_⟩
  · intro hfind
    unfold recordResults
    rw [if_neg hguard, hfind]
  · intro g hfind hmem
    unfold recordResults
    rw [if_neg hguard, hfind]
    simp only [if_pos hmem]
  · intro g x hfind hmem hns hx
    unfold recordResults
    rw [if_neg hguard, hfind]
    dsimp only
    have hbad : placementBad s g.players = true := by
      unfold placementBad
      rw [hns]
      simpa using hx
    rw [if_neg (not_not_intro hmem), if_pos hbad]
  · intro g x hfind hmem hsok hnt hx
    unfold recordResults
    rw [if_neg hguard, hfind]
    dsimp only
    have hsgood : placementBad s g.players = false := by
      unfold placementBad
      cases hns : normOpt s with
      | none => rfl
      | some y => simpa using hsok y hns
    have hbad : placementBad t g.players = true := by
      unfold placementBad
      rw [hnt]
      simpa using hx
    rw [if_neg (not_not_intro hmem), if_neg (by simp [hsgood]), if_pos hbad]
  · intro e db' h
    exact recordResults_err_spec db gid first s t e db' h

/-- C6 witness: `NotFound` on an unknown game id, and `InvalidPlacement`
for a first or second placement not seated in the game. -/
theorem results_error_handling_witness :
    recordResults ⟨[⟨1, ["A", "B"], "h", none, none, none, 0⟩], [], 2⟩
        99 "A" none none =
      (.error .notFound, ⟨[⟨1, ["A", "B"], "h", none, none, none, 0⟩], [], 2⟩) ∧
    recordResults ⟨[⟨1, ["A", "B"], "h", none, none, none, 0⟩], [], 2⟩
        1 "Z" none none =
      (.error .invalidPlacement,
        ⟨[⟨1, ["A", "B"], "h", none, none, none, 0⟩], [], 2⟩) ∧
    recordResults ⟨[⟨1, ["A", "B"], "h", none, none, none, 0⟩], [], 2⟩
        1 "A" (some "Z") none =
      (.error .invalidPlacement,
        ⟨[⟨1, ["A", "B"], "h", none, none, none, 0⟩], [], 2⟩) :=
  ⟨(results_error_handling ⟨[⟨1, ["A", "B"], "h", none, none, none, 0⟩], [], 2⟩
      99 "A" none none (by decide) (by decide)).1 (by decide),
   (results_error_handling ⟨[⟨1, ["A", "B"], "h", none, none, none, 0⟩], [], 2⟩
      1 "Z" none none (by decide) (by decide)).2.1
      ⟨1, ["A", "B"], "h", none, none, none, 0⟩ (by decide) (by decide),
   (results_error_handling ⟨[⟨1, ["A", "B"], "h", none, none, none, 0⟩], [], 2⟩
      1 "A" (some "Z") none (by decide) (by decide)).2.2.1
      ⟨1, ["A", "B"], "h", none, none, none, 0⟩ "Z" (by decide) (by decide)
      (by decide) (by decide)⟩

/-- C10: `generateSeating` does not enforce non-negativity of `buyIn`:
the body value is coerced with `Number(..) || 0`, so a missing,
non-numeric, or NaN `buyIn` is silently treated as 0 (not rejected),
while any negative numeric `buyIn` is accepted, persisted on the Game
row, and propagated into each seated player's `totalBuyIns` and
`netProfit`. -/
theorem buyin_coercion_spec :
    coerceBuyIn none = 0 ∧
    coerceBuyIn (some .nan) = 0 ∧
    (∀ q : Int, coerceBuyIn (some (.num q)) = q) ∧
    (∀ (db : DB) (players : List String) (q : Int) (cs : Nat → Nat → Nat)
      (seating : List String) (gid : Nat) (db' : DB),
      q < 0 → players.Nodup →
      generateEndpoint db players (some (.num q)) cs = (.ok (seating, gid), db') →
      (∃ g ∈ db'.games, g.id = gid ∧ g.buyIn = q) ∧
      ∀ p ∈ seating, ∃ r, getRow db'.stats p = some r ∧
        r.totalBuyins =
          ((getRow db.stats p).map (fun r0 => r0.totalBuyins)).getD 0 + q ∧
        r.netProfit =
          ((getRow db.stats p).map (fun r0 => r0.netProfit)).getD 0 - q) := by
  refine ⟨rfl, rfl, fun q => rfl, ?_⟩
  intro db players q cs seating gid db' _ hnd h
  obtain ⟨-, -, ⟨r, hseat⟩, -, hgid, hdb⟩ :=
    generateSeating_ok_spec db players (coerceBuyIn (some (.num q))) cs
      seating gid db' h
  have hsnd : seating.Nodup := by
    rw [hseat]
    exact ((shuffle_perm players (cs r)).symm).nodup hnd
  constructor
  · rw [hdb]
    exact ⟨_, List.mem_append_right _ (List.mem_singleton_self _),
      hgid.symm, rfl⟩
  · intro p hp
    have hrow : getRow db'.stats p =
        some (gameCreatedUpsert q (getRow db.stats p)) := by
      rw [hdb]
      show getRow (updatePlayerStats db.stats seating q) p = _
      unfold updatePlayerStats
      exact getRow_foldl_upsert_mem seating (fun _ => gameCreatedUpsert q)
        db.stats p hsnd hp
    refine ⟨gameCreatedUpsert q (getRow db.stats p), hrow, ?_, ?_⟩
    · cases getRow db.stats p <;> simp [gameCreatedUpsert]
    · cases getRow db.stats p <;> simp [gameCreatedUpsert, Int.sub_eq_add_neg]

/-- C10 witness: a generate with `buyIn = -25` succeeds and each seated
player is credited with `totalBuyIns = -25` and `netProfit = 25`. -/
theorem buyin_coercion_spec_witness :
    ∃ r, getRow ((⟨[⟨1, ["B", "A"], hashSeating ["B", "A"], none, none, none, -25⟩],
        [("B", ⟨1, 0, 0, -25, 0, 25⟩), ("A", ⟨1, 0, 0, -25, 0, 25⟩)], 2⟩ : DB)).stats
        "A" = some r ∧
      r.totalBuyins =
        ((getRow ([] : Stats) "A").map (fun r0 => r0.totalBuyins)).getD 0 + (-25) ∧
      r.netProfit =
        ((getRow ([] : Stats) "A").map (fun r0 => r0.netProfit)).getD 0 - (-25) :=
  (buyin_coercion_spec.2.2.2 ⟨[], [], 1⟩ ["A", "B"] (-25) (fun _ _ => 0)
    ["B", "A"] 1
    ⟨[⟨1, ["B", "A"], hashSeating ["B", "A"], none, none, none, -25⟩],
     [("B", ⟨1, 0, 0, -25, 0, 25⟩), ("A", ⟨1, 0, 0, -25, 0, 25⟩)], 2⟩
    (by decide) (by decide) (by decide)).2 "A" (by decide)

/-- C1 counterexample: the single-active-game invariant is not preserved
by admin edit, and recording results does not always leave zero active
games.  With game 1 settled and game 2 active (the invariant holds), a
PATCH clearing game 1's winner succeeds and leaves two active games;
and `recordResults` on the already-settled game 1 succeeds while game 2
stays active, so one active game remains (not zero). -/
theorem single_active_counterexample :
    invariantDB ⟨[⟨1, ["A", "B"], "h1", some "A", none, none, 0⟩,
      ⟨2, ["A", "B"], "h2", none, none, none, 0⟩], [], 3⟩ ∧
    (adminPatch ⟨[⟨1, ["A", "B"], "h1", some "A", none, none, 0⟩,
      ⟨2, ["A", "B"], "h2", none, none, none, 0⟩], [], 3⟩ 1
      (some none) none none).1 = .ok () ∧
    ¬ invariantDB (adminPatch ⟨[⟨1, ["A", "B"], "h1", some "A", none, none, 0⟩,
      ⟨2, ["A", "B"], "h2", none, none, none, 0⟩], [], 3⟩ 1
      (some none) none none).2 ∧
    (recordResults ⟨[⟨1, ["A", "B"], "h1", some "A", none, none, 0⟩,
      ⟨2, ["A", "B"], "h2", none, none, none, 0⟩], [], 3⟩ 1 "A" none none).1 =
      .ok () ∧
    activeCount (recordResults ⟨[⟨1, ["A", "B"], "h1", some "A", none, none, 0⟩,
      ⟨2, ["A", "B"], "h2", none, none, none, 0⟩], [], 3⟩ 1 "A" none none).2 =
      1 := by decide

/-- C1 (amended): at most one active Game (a row with `winner IS NULL`)
is an invariant preserved by `generateSeating`, `recordResults` and
admin delete: a successful `generateSeating` requires zero active Games
and leaves exactly one; `recordResults` and admin delete never increase
the number of active Games; and a successful `recordResults` whose
target is the active Game leaves zero active Games.  (Admin edit is
excluded: clearing a settled Game's winner can produce a second active
Game, and `recordResults` on an already-settled Game leaves an existing
active Game active — see the counterexample.) -/
theorem single_active_invariant (db : DB) (players : List String) (b : Int)
    (cs : Nat → Nat → Nat) (gid : Nat) (first : String)
    (s t : Option String) (did : Nat) :
    (∀ res db', generateSeating db players b cs = (res, db') →
      (invariantDB db → invariantDB db') ∧
      (∀ v, res = .ok v → activeCount db = 0 ∧ activeCount db' = 1)) ∧
    (∀ res db', recordResults db gid first s t = (res, db') →
      activeCount db' ≤ activeCount db ∧
      (res = .ok () → invariantDB db → targetActive db gid = true →
        activeCount db' = 0)) ∧
    activeCount (adminDelete db did) ≤ activeCount db := by
  refine ⟨?_, ?_, activeCount_delete_le db did⟩
  · intro res db' h
    cases res with
    | error e =>
        have hdb := generateSeating_err_spec db players b cs e db' h
        subst hdb
        exact ⟨id, fun v hv => by cases hv⟩
    | ok v =>
        obtain ⟨seating, gid0⟩ := v
        obtain ⟨-, hact, -, -, -, hdb⟩ :=
          generateSeating_ok_spec db players b cs seating gid0 db' h
        have h0 : activeCount db = 0 := activeCount_zero_of_not_hasActive db hact
        have h1 : activeCount db' = 1 := by
          rw [hdb]
          unfold activeCount
          simp only []
          rw [activeCount_insert_active db _ rfl, h0]
        exact ⟨fun _ => by rw [invariantDB, h1], fun v hv => ⟨h0, h1⟩⟩
  · intro res db' h
    have hle : activeCount db' ≤ activeCount db := by
      have := activeCount_record_le db gid first s t
      rw [h] at this
      exact this
    refine ⟨hle, ?_⟩
    intro hok hinv htgt
    subst hok
    exact activeCount_record_zero db gid first s t db' h hinv htgt

/-- C1 witness: the amended invariant exercised at concrete stores —
a successful generate on an empty store leaves exactly one active game,
a successful `recordResults` on the unique active game leaves zero, and
admin delete does not increase the active count. -/
theorem single_active_invariant_witness :
    activeCount (generateSeating ⟨[], [], 1⟩ ["A", "B"] 0 (fun _ _ => 0)).2 = 1 ∧
    activeCount (recordResults ⟨[⟨1, ["A", "B"], "h", none, none, none, 0⟩], [], 2⟩
      1 "A" none none).2 = 0 ∧
    activeCount (adminDelete ⟨[⟨1, ["A", "B"], "h", none, none, none, 0⟩], [], 2⟩ 1) ≤
      activeCount ⟨[⟨1, ["A", "B"], "h", none, none, none, 0⟩], [], 2⟩ :=
  ⟨(((single_active_invariant ⟨[], [], 1⟩ ["A", "B"] 0 (fun _ _ => 0) 1 "A"
      none none 1).1
      (generateSeating ⟨[], [], 1⟩ ["A", "B"] 0 (fun _ _ => 0)).1
      (generateSeating ⟨[], [], 1⟩ ["A", "B"] 0 (fun _ _ => 0)).2 rfl).2
      (["B", "A"], 1) (by decide)).2,
   ((single_active_invariant ⟨[⟨1, ["A", "B"], "h", none, none, none, 0⟩], [], 2⟩
      ["A", "B"] 0 (fun _ _ => 0) 1 "A" none none 1).2.1
      (recordResults ⟨[⟨1, ["A", "B"], "h", none, none, none, 0⟩], [], 2⟩
        1 "A" none none).1
      (recordResults ⟨[⟨1, ["A", "B"], "h", none, none, none, 0⟩], [], 2⟩
        1 "A" none none).2 rfl).2 (by decide) (by decide) (by decide),
   (single_active_invariant ⟨[⟨1, ["A", "B"], "h", none, none, none, 0⟩], [], 2⟩
      ["A", "B"] 0 (fun _ _ => 0) 1 "A" none none 1).2.2⟩

/-- C3 counterexample: the claim quantifies over all histories, but a
reachable history with a duplicated seating entry breaks the agreement:
for the single game with seating `["A","A"]` and winner `A`,
`recomputeAll` credits A with 2 wins (the seating loop visits A twice)
while the incremental path credits 1. -/
theorem recompute_incremental_counterexample :
    proj3At (recalculateStats [⟨1, ["A", "A"], "h", some "A", none, none, 0⟩]) "A" ≠
    proj3At (replayIncremental [⟨1, ["A", "A"], "h", some "A", none, none, 0⟩]) "A" := by
  decide

/-- C3 (amended): for any history whose games have duplicate-free
seatings and valid placements (nonempty members of the seating, pairwise
distinct, present only when a winner is present — exactly what
`generateSeating` followed by one `recordResults` produces),
`recomputeAll` yields the same `gamesPlayed`, `wins` and `top3` values
for every player as applying the incremental updates (`updatePlayerStats`
at each creation, the placement updates at each result recording, each
once) in chronological order over the same history. -/
theorem recompute_matches_incremental (games : List Game) (p : String)
    (hv : ∀ g ∈ games, validGame g = true) :
    proj3At (recalculateStats games) p = proj3At (replayIncremental games) p :=
  recalc_eq_replay games hv p

/-- C3 witness: a two-game history (a settled game with first and second
places, then a created-but-unsettled game). -/
theorem recompute_matches_incremental_witness :
    proj3At (recalculateStats
      [⟨1, ["A", "B", "C"], "h1", some "B", some "A", none, 50⟩,
       ⟨2, ["A", "B"], "h2", none, none, none, 10⟩]) "B" =
    proj3At (replayIncremental
      [⟨1, ["A", "B", "C"], "h1", some "B", some "A", none, 50⟩,
       ⟨2, ["A", "B"], "h2", none, none, none, 10⟩]) "B" :=
  recompute_matches_incremental
    [⟨1, ["A", "B", "C"], "h1", some "B", some "A", none, 50⟩,
     ⟨2, ["A", "B"], "h2", none, none, none, 10⟩] "B" (by decide)

end PokerSeating
